import Mathlib

/-!
Verification of the Knowledge Contribution Staging & Conflict-Resolution
Engine (Brain Curator workflow plus its Redis persistence client).

The development shallowly embeds `src/orchestrator/lib/redis_client.py` and
`src/orchestrator/agents/brain_curator.py`:

* Python strings are `List Char` (`Str`); Python floats in `[0,1]`
  (conflict confidences) are `ℚ`.
* The shared Redis store is an explicit state record (`RedisState`).
  Network transport either works (`available = true`: the client is
  configured and reachable) or every command returns the `None` sentinel
  (`available = false`), exactly as `_request`/`_pipeline` degrade.
  A multi-command pipeline is modelled as a single atomic state transition.
* `uuid.uuid4()` and `datetime.now()` draws are modelled by the monotone
  counter `tick`: each operation that draws a fresh id/timestamp uses the
  current tick and bumps it, so ids, version ids and sorted-set scores are
  unique and strictly increasing in program order.
* Sorted sets are stored as raw `(score, member)` lists; range reads sort
  by score descending, as ZREVRANGE does.  Members added by this code are
  pairwise distinct (they embed fresh ids or fresh timestamps), so ZADD's
  member-deduplication is a no-op and is modelled as a plain prepend.
* Key TTLs (EXPIRE) are not modelled: no claim involves expiry.
-/

namespace PhonoLogic
/-- Python `str`, embedded as a list of characters. -/
abbrev Str := List Char

/-- Association-list lookup, modelling dict / Redis-hash field access. -/
def alookup {α : Type} : List (Str × α) → Str → Option α
  | [], _ => none
  | (k, v) :: rest, k' => if k = k' then some v else alookup rest k'

/-- Association-list update, modelling dict / Redis HSET field write. -/
def aset {α : Type} : List (Str × α) → Str → α → List (Str × α)
  | [], k, v => [(k, v)]
  | (k', v') :: rest, k, v =>
      if k' = k then (k, v) :: rest else (k', v') :: aset rest k v

/-- Association-list delete, modelling Redis DEL / HDEL of one field. -/
def adel {α : Type} : List (Str × α) → Str → List (Str × α)
  | [], _ => []
  | (k', v') :: rest, k => if k' = k then rest else (k', v') :: adel rest k

/-- Descending-score comparison used to read a sorted set newest-first. -/
def scoreDesc {α : Type} (a b : Nat × α) : Prop := b.1 ≤ a.1

instance {α : Type} : DecidableRel (α := Nat × α) scoreDesc :=
  fun a b => inferInstanceAs (Decidable (b.1 ≤ a.1))

instance {α : Type} : IsTotal (Nat × α) scoreDesc :=
  ⟨fun a b => Nat.le_total b.1 a.1⟩

instance {α : Type} : IsTrans (Nat × α) scoreDesc :=
  ⟨fun _ _ _ h1 h2 => Nat.le_trans h2 h1⟩

/-- ZADD: scores drawn from the monotone tick are fresh and members written
by this code embed fresh ids or timestamps, so member deduplication never
fires; the new element is prepended. -/
def zadd {α : Type} (l : List (Nat × α)) (score : Nat) (m : α) : List (Nat × α) :=
  (score, m) :: l

/-- ZREVRANGE offset .. offset+limit-1: slice of the members ordered by
descending score. -/
def zrevrangeSlice {α : Type} (l : List (Nat × α)) (offset limit : Nat) : List α :=
  (((List.insertionSort scoreDesc l).drop offset).take limit).map Prod.snd

/-- ZREM of one member. -/
def zrem {α : Type} [DecidableEq α] (l : List (Nat × α)) (m : α) : List (Nat × α) :=
  l.filter (fun e => e.2 ≠ m)

/-- Conflict type tags from `ConflictInfo.conflict_type`. -/
inductive ConflictType
  | update
  | contradiction
  | duplicate
deriving DecidableEq, Repr

/-- Embedding of `ConflictInfo` (brain_curator.py). -/
structure ConflictInfo where
  field_path : Str
  existing_value : Str
  proposed_value : Str
  conflict_type : ConflictType
  confidence : ℚ
deriving DecidableEq, Repr

/-- Contribution lifecycle status (`PendingContribution.status`). -/
inductive ContributionStatus
  | pending
  | approved
  | rejected
  | needs_clarification
deriving DecidableEq, Repr

/-- Embedding of `PendingContribution` (brain_curator.py).  The
`parsed_category`/`parsed_content` fields are omitted: the code never sets
them away from their defaults. -/
structure PendingContribution where
  id : Str
  contributor : Str
  raw_input : Str
  conflicts : List ConflictInfo
  status : ContributionStatus
  curator_response : Option Str
  created_at : Nat
  resolved_at : Option Nat
deriving DecidableEq, Repr

/-- Embedding of `CurationResult` (brain_curator.py). -/
structure CurationResult where
  accepted : Bool
  message : Str
  conflicts_found : List ConflictInfo
  clarification_needed : Bool
  suggestion : Option Str
  contribution_id : Option Str
deriving DecidableEq, Repr

/-- A brain knowledge override record, as built by `save_brain_update`. -/
structure BrainUpdate where
  category : Str
  key : Str
  value : Str
  contributor : Str
  timestamp : Nat
  version_id : Nat
deriving DecidableEq, Repr

/-- A version-history entry, as archived by `save_brain_update`. -/
structure HistoryEntry where
  previous : BrainUpdate
  replaced_at : Nat
  replaced_by : Str
  new_version_id : Nat
deriving DecidableEq, Repr

/-- An audit-log entry (`_log_audit`). -/
structure AuditEntry where
  action : Str
  data : BrainUpdate
  timestamp : Nat
deriving DecidableEq, Repr

/-- The shared Redis state seen by one service instance.  `pendingStore`
is the `orchestrator:pending:<id>` keyspace (key, stored record);
`pendingIndex` is the sorted-set index of pending ids; `brainUpdates` the
override hash; `brainHistory` and `auditLog` the corresponding sorted
sets; `locks` the `orchestrator:lock:*` keys; `rateCounters` the
`orchestrator:ratelimit:*` keys. -/
structure RedisState where
  available : Bool
  tick : Nat
  pendingStore : List (Str × PendingContribution)
  pendingIndex : List (Nat × Str)
  brainUpdates : List (Str × BrainUpdate)
  brainHistory : List (Nat × HistoryEntry)
  auditLog : List (Nat × AuditEntry)
  locks : List (Str × Str)
  rateCounters : List (Str × Nat)
deriving DecidableEq, Repr

/-- A fresh store with no data. -/
def initialState (avail : Bool) : RedisState :=
  { available := avail, tick := 0, pendingStore := [], pendingIndex := [],
    brainUpdates := [], brainHistory := [], auditLog := [], locks := [],
    rateCounters := [] }

/-! ### Locks (`acquire_lock` / `release_lock`) -/

/-- Key of the lock guarding `resource` (prefix `orchestrator:lock:`). -/
def lockKeyOf (resource : Str) : Str := "orchestrator:lock:".toList ++ resource

/-- Lock token drawn for tick `t`, modelling `uuid.uuid4()`. -/
def tokenOfTick (t : Nat) : Str := "tok_".toList ++ (Nat.repr t).toList

/-- Embedding of `RedisClient.acquire_lock`: SET NX with TTL; returns the
fresh token on success, `none` when the store is unreachable or the lock
is already held.  The TTL argument is kept for signature fidelity; expiry
is not modelled. -/
def acquire_lock (st : RedisState) (resource : Str) (_timeoutSeconds : Nat) :
    Option Str × RedisState :=
  let key := lockKeyOf resource
  let token := tokenOfTick st.tick
  if st.available then
    match alookup st.locks key with
    | some _ => (none, { st with tick := st.tick + 1 })
    | none =>
        (some token, { st with locks := aset st.locks key token, tick := st.tick + 1 })
  else (none, { st with tick := st.tick + 1 })

/-- Embedding of `RedisClient.release_lock`: GET the current token and DEL
only when it equals the presented token. -/
def release_lock (st : RedisState) (resource : Str) (token : Str) :
    Bool × RedisState :=
  let key := lockKeyOf resource
  if st.available then
    match alookup st.locks key with
    | some current =>
        if current = token then (true, { st with locks := adel st.locks key })
        else (false, st)
    | none => (false, st)
  else (false, st)

/-! ### Rate limiter (`check_rate_limit`) -/

/-- Embedding of `RedisClient.check_rate_limit`: pipeline INCR + EXPIRE;
`allowed` iff the post-increment count is at most `max_requests`,
`remaining = max(0, max_requests - count)` (Nat subtraction).  When the
store is unreachable the pipeline yields `None` results, the count is read
as 0 and the limiter fails open.  The window length only sets a TTL and is
kept for signature fidelity. -/
def check_rate_limit (st : RedisState) (identifier : Str)
    (max_requests _window_seconds : Nat) : (Bool × Nat) × RedisState :=
  if st.available then
    let count := (alookup st.rateCounters identifier).getD 0 + 1
    ((count ≤ max_requests, max_requests - count),
     { st with rateCounters := aset st.rateCounters identifier count })
  else ((true, max_requests), st)

/-! ### Iterated rate-limiter calls -/

/-- Iterated limiter calls for the same identifier and parameters. -/
def rateIter (identifier : Str) (max_requests window_seconds : Nat) :
    Nat → RedisState → RedisState
  | 0, s => s
  | Nat.succ n, s =>
      rateIter identifier max_requests window_seconds n
        (check_rate_limit s identifier max_requests window_seconds).2

/-! ### Versioned knowledge override repository -/

/-- Size cap on contributions (redis_client.py). -/
def MAX_CONTRIBUTION_LENGTH : Nat := 10000

/-- Composite hash-field key `category:key`. -/
def fieldKey (category key : Str) : Str := category ++ ':' :: key

/-- ZREMRANGEBYRANK 0 (-1001): keep only the 1000 newest audit entries. -/
def trimAudit (l : List (Nat × AuditEntry)) : List (Nat × AuditEntry) :=
  (List.insertionSort scoreDesc l).take 1000

/-- Embedding of `RedisClient._log_audit`: pipeline a ZADD of the entry
with the current timestamp and a trim to the newest 1000 entries. -/
def log_audit (st : RedisState) (action : Str) (data : BrainUpdate) : RedisState :=
  if st.available then
    { st with auditLog := trimAudit (zadd st.auditLog st.tick ⟨action, data, st.tick⟩) }
  else st

/-- Embedding of `RedisClient.save_brain_update`: draw a fresh version id
and timestamp; if `save_history` and a current value exists at
`category:key`, archive `{previous, replaced_at, replaced_by,
new_version_id}` into the history sorted set; write the new record into
the override hash.  Archive and overwrite are applied as one atomic
transition, modelling the single pipeline they are issued in.  On success
an audit entry is appended.  When the store is unreachable every command
returns the `None` sentinel and the call reports failure. -/
def save_brain_update (st : RedisState) (category key value contributor : Str)
    (save_history : Bool) : (Bool × Nat) × RedisState :=
  let version_id := st.tick
  let timestamp := st.tick
  let update : BrainUpdate :=
    ⟨category, key, value, contributor, timestamp, version_id⟩
  let fk := fieldKey category key
  if st.available then
    let withHist :=
      if save_history then
        match alookup st.brainUpdates fk with
        | some current =>
            let entry : HistoryEntry := ⟨current, timestamp, contributor, version_id⟩
            { st with brainHistory := zadd st.brainHistory st.tick entry }
        | none => st
      else st
    let written := { withHist with brainUpdates := aset withHist.brainUpdates fk update }
    let logged := log_audit written "brain_update".toList update
    ((true, version_id), { logged with tick := st.tick + 1 })
  else ((false, version_id), st)

/-- Embedding of `RedisClient.get_brain_history`: ZREVRANGE 0 .. limit-1,
newest first; an unreachable store degrades to the empty list. -/
def get_brain_history (st : RedisState) (limit : Nat) : List HistoryEntry :=
  if st.available then zrevrangeSlice st.brainHistory 0 limit else []

/-- Contributor recorded for restores performed by rollback. -/
def sysRollback : Str := "system:rollback".toList

/-- Loop body of `rollback_brain_update`: scan the (newest-first) history
page for the first entry whose archived record matches `(category, key)`
and re-apply it via `save_brain_update`; on a failed re-save, keep
scanning. -/
def rollbackLoop (category key : Str) :
    RedisState → List HistoryEntry → Option BrainUpdate × RedisState
  | st, [] => (none, st)
  | st, e :: rest =>
      if e.previous.category = category ∧ e.previous.key = key then
        match save_brain_update st e.previous.category e.previous.key
            e.previous.value sysRollback true with
        | ((true, _), st') => (some e.previous, st')
        | ((false, _), st') => rollbackLoop category key st' rest
      else rollbackLoop category key st rest

/-- Embedding of `RedisClient.rollback_brain_update`: scan the 100 newest
history entries for the most recent one archived for `(category, key)`
and restore its value (itself archiving the value being rolled back
from); return the restored record, or `none` when no entry matches. -/
def rollback_brain_update (st : RedisState) (category key : Str) :
    Option BrainUpdate × RedisState :=
  rollbackLoop category key st (get_brain_history st 100)

/-! ### Conflict detector -/

/-- The five conflict scanners run by `detect_conflicts`
(`_check_pricing_conflicts`, `_check_timeline_conflicts`,
`_check_feature_conflicts`, `_check_team_conflicts`,
`_semantic_search_conflicts`).  Each reads only the submitted text and
the curator's fixed knowledge snapshot (`self.brain`), so it is abstracted
as a function of the text; scanner exceptions are caught in the source and
yield an empty result, so each scanner is total. -/
structure Scanners where
  pricing : Str → List ConflictInfo
  timeline : Str → List ConflictInfo
  feature : Str → List ConflictInfo
  team : Str → List ConflictInfo
  semantic : Str → List ConflictInfo

/-- Ordering by non-increasing confidence, the sort key of
`sorted(unique_conflicts, key=confidence, reverse=True)`. -/
def confidenceDesc (a b : ConflictInfo) : Prop := b.confidence ≤ a.confidence

instance : DecidableRel confidenceDesc :=
  fun a b => inferInstanceAs (Decidable (b.confidence ≤ a.confidence))

instance : IsTotal ConflictInfo confidenceDesc :=
  ⟨fun a b => le_total b.confidence a.confidence⟩

instance : IsTrans ConflictInfo confidenceDesc :=
  ⟨fun _ _ _ h1 h2 => le_trans h2 h1⟩

/-- The `seen`-set deduplication loop of `detect_conflicts`: keep the
first conflict for each `field_path`. -/
def dedupByPath : List Str → List ConflictInfo → List ConflictInfo
  | _, [] => []
  | seen, c :: rest =>
      if c.field_path ∈ seen then dedupByPath seen rest
      else c :: dedupByPath (c.field_path :: seen) rest

/-- Concatenation of the five scanner outputs in their fixed order. -/
def allScans (sc : Scanners) (text : Str) : List ConflictInfo :=
  sc.pricing text ++ sc.timeline text ++ sc.feature text ++ sc.team text ++
    sc.semantic text

/-- Embedding of `BrainCurator.detect_conflicts`: run the scanners in
order, deduplicate by `field_path` (first seen wins), sort by descending
confidence (Python's stable sort; insertion sort with the non-strict
descending relation is likewise stable). -/
def detect_conflicts (sc : Scanners) (text : Str) : List ConflictInfo :=
  List.insertionSort confidenceDesc (dedupByPath [] (allScans sc text))

/-! ### Input sanitization and contribution construction -/

/-- The single-quote character (escaped via a code point to keep the
source free of ambiguous quoting). -/
def squote : Char := Char.ofNat 39

/-- Character-wise `html.escape(v, quote=True)`. -/
def escapeChar (c : Char) : Str :=
  if c = '&' then "&amp;".toList
  else if c = '<' then "&lt;".toList
  else if c = '>' then "&gt;".toList
  else if c = '"' then "&quot;".toList
  else if c = squote then "&#x27;".toList
  else [c]

/-- HTML-escaping of a whole string. -/
def htmlEscape (s : Str) : Str := s.flatMap escapeChar

/-- The `sanitize_input` field validator: HTML-escape, then truncate back
to the cap if escaping pushed the text over it. -/
def sanitize_input (v : Str) : Str :=
  let e := htmlEscape v
  if MAX_CONTRIBUTION_LENGTH < e.length then e.take MAX_CONTRIBUTION_LENGTH else e

/-- Construction of a `PendingContribution`.  Pydantic enforces the
declared `max_length` cap on the raw field before the `sanitize_input`
validator runs, so an input already above the cap raises a
ValidationError (`none`); otherwise the validator escapes and truncates
and construction succeeds. -/
def mkPendingContribution (id contributor raw : Str)
    (conflicts : List ConflictInfo) (status : ContributionStatus)
    (resp : Option Str) (now : Nat) : Option PendingContribution :=
  if MAX_CONTRIBUTION_LENGTH < raw.length then none
  else some { id := id, contributor := contributor,
              raw_input := sanitize_input raw, conflicts := conflicts,
              status := status, curator_response := resp,
              created_at := now, resolved_at := none }

/-- Models `len(json.dumps(...))` for one serialized conflict: the three
text payloads plus a fixed overhead for keys, quoting, the type tag and
the confidence literal. -/
def conflictDumpLen (c : ConflictInfo) : Nat :=
  c.field_path.length + c.existing_value.length + c.proposed_value.length + 96

/-- Models `len(json.dumps(contribution.model_dump()))` checked by
`save_pending`: the text payloads plus a fixed overhead for field keys,
punctuation, status and timestamps. -/
def pendingDumpLen (p : PendingContribution) : Nat :=
  p.id.length + p.contributor.length + p.raw_input.length +
    (p.conflicts.map conflictDumpLen).sum +
    (p.curator_response.getD []).length + 190

/-! ### Staged-contribution repository -/

/-- Embedding of `RedisClient.save_pending`: refuse a payload over the
size cap before any network call; otherwise pipeline the record write,
the timestamp-scored index add and the TTL set as one atomic batch.  An
unreachable store yields `None` pipeline results and the call reports
failure. -/
def save_pending (st : RedisState) (contribution_id : Str)
    (data : PendingContribution) : Bool × RedisState :=
  if MAX_CONTRIBUTION_LENGTH < pendingDumpLen data then (false, st)
  else if st.available then
    (true, { st with
        pendingStore := aset st.pendingStore contribution_id data,
        pendingIndex := zadd st.pendingIndex st.tick contribution_id,
        tick := st.tick + 1 })
  else (false, st)

/-- Embedding of `RedisClient.delete_pending`: pipeline DEL of the record
and ZREM of the index entry; DEL reports whether the record existed. -/
def delete_pending (st : RedisState) (contribution_id : Str) :
    Bool × RedisState :=
  if st.available then
    ((alookup st.pendingStore contribution_id).isSome,
     { st with pendingStore := adel st.pendingStore contribution_id,
               pendingIndex := zrem st.pendingIndex contribution_id })
  else (false, st)

/-- The ids of the `n` newest entries of the pending index
(ZREVRANGE 0 .. n-1). -/
def newestPendingIds (st : RedisState) (n : Nat) : List Str :=
  zrevrangeSlice st.pendingIndex 0 n

/-- Embedding of `RedisClient.list_pending` in the descending order used
by the curator: cap the limit at 100, read the index cardinality, slice
ids newest-first, batch-fetch the records and skip missing or corrupted
ones.  An unreachable store degrades to an empty page. -/
def list_pending (st : RedisState) (limit offset : Nat) :
    List PendingContribution × Nat :=
  if st.available then
    let limit := min limit 100
    let total := st.pendingIndex.length
    if total = 0 then ([], 0)
    else
      let ids := (((List.insertionSort scoreDesc st.pendingIndex).drop offset).take
        limit).map Prod.snd
      (ids.filterMap (alookup st.pendingStore), total)
  else ([], 0)

/-! ### Brain curator: submission -/

/-- Embedding of the `BrainCurator.pending_queue` property: the 100
newest pending contributions, fetched fresh from the store; an
unreachable store degrades to an empty queue. -/
def pending_queue (st : RedisState) : List PendingContribution :=
  if st.available then (list_pending st 100 0).1 else []

/-- Embedding of `BrainCurator._save_pending`: skip entirely when the
store is unconfigured; otherwise call `save_pending` and discard its
boolean outcome (failures are only logged). -/
def curator_save_pending (st : RedisState) (p : PendingContribution) : RedisState :=
  if st.available then (save_pending st p.id p).2 else st

/-- The id `_generate_id` produces at tick `st.tick`: a prefix derived
from the wall clock plus a full random UUID, both modelled by the
monotone tick. -/
def submitId (st : RedisState) : Str :=
  "contrib_".toList ++ (Nat.repr st.tick).toList

/-- Embedding of `BrainCurator._generate_id`: draw a fresh id, bumping
the tick. -/
def generate_id (st : RedisState) : Str × RedisState :=
  (submitId st, { st with tick := st.tick + 1 })

/-- The clarification threshold `0.7`. -/
def clarificationThreshold : ℚ := mkRat 7 10

/-- The detected conflicts at or above the clarification threshold. -/
def highConflicts (sc : Scanners) (text : Str) : List ConflictInfo :=
  (detect_conflicts sc text).filter
    (fun c => clarificationThreshold ≤ c.confidence)

/-- Models `_build_conflict_message`: one block per conflict quoting the
field path and the preview-truncated proposed and existing values. -/
def conflictBlock (c : ConflictInfo) : Str :=
  c.field_path ++ (c.proposed_value.take 100) ++ (c.existing_value.take 100)

/-- Models the human-readable message of `_build_conflict_message`: a
fixed header, the conflict blocks, and a fixed footer listing the
resolution actions.  The exact prose is abbreviated; no claim inspects
it. -/
def build_conflict_message (conflicts : List ConflictInfo) : Str :=
  "conflicts found: ".toList ++ (conflicts.map conflictBlock).flatten ++
    " actions: update keep add_note clarify".toList

/-- Embedding of `BrainCurator.process_contribution`: draw a fresh id,
run the detector (scanner failures already yield empty results), and —
unless `force` is set or no conflict reaches the 0.7 threshold — stage a
`needs_clarification` record and return the high-confidence conflicts;
otherwise stage a `pending` record and return acceptance.  `none` models
the ValidationError raised (and re-raised) when the text exceeds the
construction cap. -/
def process_contribution (sc : Scanners) (st : RedisState)
    (text contributor : Str) (force : Bool) :
    Option (CurationResult × RedisState) :=
  let idSt := generate_id st
  let contrib_id := idSt.1
  let st := idSt.2
  let conflicts := detect_conflicts sc text
  let stagePending : RedisState → Option (CurationResult × RedisState) := fun st =>
    match mkPendingContribution contrib_id contributor text conflicts
        ContributionStatus.pending none st.tick with
    | none => none
    | some pending =>
        let st := curator_save_pending st pending
        some ({ accepted := true, message := "staged, no conflicts".toList,
                conflicts_found := [], clarification_needed := false,
                suggestion := none, contribution_id := some contrib_id }, st)
  if force = false ∧ conflicts ≠ [] then
    let high := highConflicts sc text
    if high ≠ [] then
      let message := build_conflict_message high
      match mkPendingContribution contrib_id contributor text conflicts
          ContributionStatus.needs_clarification (some message) st.tick with
      | none => none
      | some pending =>
          let st := curator_save_pending st pending
          some ({ accepted := false, message := message, conflicts_found := high,
                  clarification_needed := true, suggestion := none,
                  contribution_id := some contrib_id }, st)
    else stagePending st
  else stagePending st

/-! ### Brain curator: resolution -/

/-- Python `str.lower()`. -/
def toLowerStr (s : Str) : Str := s.map Char.toLower

/-- Substring test (`needle in haystack`). -/
def containsSub (needle : Str) : Str → Bool
  | [] => needle.isEmpty
  | c :: rest => needle.isPrefixOf (c :: rest) || containsSub needle rest

/-- Pricing keywords of `_persist_contribution_to_brain` (checked
first). -/
def pricingKeywords : List Str :=
  ["price".toList, "cost".toList, "$".toList, "plan".toList, "tier".toList,
   "subscription".toList]

/-- Milestone keywords (checked second). -/
def milestoneKeywords : List Str :=
  ["launch".toList, "beta".toList, "timeline".toList, "date".toList,
   "milestone".toList, "deadline".toList]

/-- Metric keywords (checked third). -/
def metricKeywords : List Str :=
  ["metric".toList, "user".toList, "revenue".toList, "mrr".toList,
   "target".toList, "kpi".toList]

/-- Embedding of `BrainCurator._persist_contribution_to_brain`:
first-match-wins keyword categorization over the lower-cased text
(pricing, then milestones, then metrics, else `recent_updates`), followed
by a history-keeping `save_brain_update`.  The save's outcome is
discarded by the caller. -/
def persist_contribution_to_brain (st : RedisState) (c : PendingContribution) :
    (Bool × Nat) × RedisState :=
  let text := toLowerStr c.raw_input
  let ck :=
    if pricingKeywords.any (fun w => containsSub w text) then
      ("pricing".toList, "update_".toList ++ c.id)
    else if milestoneKeywords.any (fun w => containsSub w text) then
      ("milestones".toList, "milestone_".toList ++ c.id)
    else if metricKeywords.any (fun w => containsSub w text) then
      ("key_metrics".toList, "metric_".toList ++ c.id)
    else ("recent_updates".toList, "update_".toList ++ c.id)
  save_brain_update st ck.1 ck.2 c.raw_input c.contributor true

/-- The not-found result of `resolve_contribution` (the contribution may
have expired or was never staged). -/
def resolveNotFound (contribution_id : Str) : CurationResult :=
  { accepted := false,
    message := "could not find contribution, it may have expired".toList,
    conflicts_found := [], clarification_needed := false, suggestion := none,
    contribution_id := some contribution_id }

/-- The contention result (another operation holds the lock). -/
def resolveBusy (contribution_id : Str) : CurationResult :=
  { accepted := false,
    message := "another operation is in progress, please try again".toList,
    conflicts_found := [], clarification_needed := false, suggestion := none,
    contribution_id := some contribution_id }

/-- The success result of the `update` action. -/
def resolveUpdated (contribution_id : Str) : CurationResult :=
  { accepted := true, message := "brain updated with your new information".toList,
    conflicts_found := [], clarification_needed := false, suggestion := none,
    contribution_id := some contribution_id }

/-- The result of the `keep` action. -/
def resolveKept (contribution_id : Str) : CurationResult :=
  { accepted := false, message := "keeping existing information".toList,
    conflicts_found := [], clarification_needed := false, suggestion := none,
    contribution_id := some contribution_id }

/-- The success result of the `add_note` action. -/
def resolveNoted (contribution_id : Str) : CurationResult :=
  { accepted := true, message := "added as a note to recent updates".toList,
    conflicts_found := [], clarification_needed := false, suggestion := none,
    contribution_id := some contribution_id }

/-- The result of `clarify` with no clarification text. -/
def resolveClarifyNeeded (contribution_id : Str) : CurationResult :=
  { accepted := false, message := "please provide clarification".toList,
    conflicts_found := [], clarification_needed := true, suggestion := none,
    contribution_id := some contribution_id }

/-- The result for an unrecognized action string. -/
def resolveUnknown (contribution_id : Str) : CurationResult :=
  { accepted := false,
    message := "unknown action, use update keep add_note or clarify".toList,
    conflicts_found := [], clarification_needed := false, suggestion := none,
    contribution_id := some contribution_id }

/-- Embedding of `BrainCurator.resolve_contribution`: look the id up in
the pending queue (the 100 newest staged items); if absent, return the
explicit not-found result without acquiring the lock or touching any
store.  Otherwise acquire the per-contribution lock (failure returns the
contention result), perform the requested action — `update` persists to
the brain (ignoring the save outcome) and deletes the staged item,
`keep` just deletes it, `add_note` saves the text as a note override and
deletes it, `clarify` re-submits the combined text or asks for
clarification — and always release the lock on the way out.  The local
mutation of `pending.status`/`resolved_at` in the source is never written
back to the store and is not modelled.  `none` models an exception
escaping (only reachable through the recursive re-submission). -/
def resolve_contribution (sc : Scanners) (st : RedisState)
    (contribution_id : Str) (action : Str) (clarification : Option Str) :
    Option (CurationResult × RedisState) :=
  match (pending_queue st).find? (fun p => p.id == contribution_id) with
  | none => some (resolveNotFound contribution_id, st)
  | some pending =>
      let lockRes := acquire_lock st ("resolve:".toList ++ contribution_id) 30
      match lockRes.1 with
      | none => some (resolveBusy contribution_id, lockRes.2)
      | some token =>
          let st := lockRes.2
          let branch : Option (CurationResult × RedisState) :=
            if action = "update".toList then
              let st1 := (persist_contribution_to_brain st pending).2
              let st2 := (delete_pending st1 contribution_id).2
              some (resolveUpdated contribution_id, st2)
            else if action = "keep".toList then
              let st1 := (delete_pending st contribution_id).2
              some (resolveKept contribution_id, st1)
            else if action = "add_note".toList then
              let st1 := (save_brain_update st "recent_updates".toList
                  ("note_".toList ++ contribution_id)
                  ("[Note] ".toList ++ pending.raw_input)
                  pending.contributor true).2
              let st2 := (delete_pending st1 contribution_id).2
              some (resolveNoted contribution_id, st2)
            else if action = "clarify".toList then
              match clarification with
              | some cl =>
                  process_contribution sc st
                    (pending.raw_input ++ "  clarification: ".toList ++ cl)
                    pending.contributor false
              | none => some (resolveClarifyNeeded contribution_id, st)
            else some (resolveUnknown contribution_id, st)
          match branch with
          | none => none
          | some (r, st') =>
              some (r, (release_lock st' ("resolve:".toList ++ contribution_id)
                token).2)

/-! ### Well-formedness of the staging keyspace, and example stores -/

/-- Well-formedness of the pending keyspace: each record is stored under
its own id (`save_pending` is always invoked with `contribution.id`). -/
def PendingStoreWF (st : RedisState) : Prop :=
  ∀ kr ∈ st.pendingStore, (kr : Str × PendingContribution).2.id = kr.1

instance (st : RedisState) : Decidable (PendingStoreWF st) :=
  List.decidableBAll _ _

/-- Scanners that detect nothing, for concrete instantiations. -/
def exScanners : Scanners :=
  ⟨fun _ => [], fun _ => [], fun _ => [], fun _ => [], fun _ => []⟩

/-- A staged example record with id `contrib_<i>`. -/
def exRecord (i : Nat) : PendingContribution :=
  { id := "contrib_".toList ++ (Nat.repr i).toList,
    contributor := "stephen@x.io".toList, raw_input := "note".toList,
    conflicts := [], status := ContributionStatus.pending,
    curator_response := none, created_at := i, resolved_at := none }

/-- A store holding exactly the record `contrib_0`. -/
def oneItemState : RedisState :=
  { initialState true with
      pendingStore := [((exRecord 0).id, exRecord 0)],
      pendingIndex := [(0, (exRecord 0).id)], tick := 1 }

/-- A store holding 101 staged contributions, `contrib_0` the oldest. -/
def hundredOneState : RedisState :=
  { initialState true with
      pendingStore := (List.range 101).map (fun i => ((exRecord i).id, exRecord i)),
      pendingIndex := (List.range 101).map (fun i => (i, (exRecord i).id)),
      tick := 101 }

/-! ### Sanitization predicates -/

/-- Residual, checkable guarantee of HTML-escaping: no raw
markup-significant character remains in the text. -/
def noRawSpecials (s : Str) : Prop :=
  ∀ c ∈ s, c ≠ '<' ∧ c ≠ '>' ∧ c ≠ '"' ∧ c ≠ squote

instance (s : Str) : Decidable (noRawSpecials s) := List.decidableBAll _ _

/-- The sanitization facts that hold of every staged record. -/
def SanitizedRecord (p : PendingContribution) : Prop :=
  p.raw_input.length ≤ MAX_CONTRIBUTION_LENGTH ∧ noRawSpecials p.raw_input

/-- The store-wide sanitization invariant over the staging keyspace. -/
def SanitizedStore (st : RedisState) : Prop :=
  ∀ kr ∈ st.pendingStore, SanitizedRecord (kr : Str × PendingContribution).2

instance (p : PendingContribution) : Decidable (SanitizedRecord p) :=
  inferInstanceAs (Decidable (_ ∧ _))

instance (st : RedisState) : Decidable (SanitizedStore st) :=
  List.decidableBAll _ _

/-! ### The records and results produced by submission -/

/-- The record staged on the clarification branch of
`process_contribution` invoked at state `st`. -/
def clarifyRecordOf (sc : Scanners) (st : RedisState) (text contributor : Str) :
    PendingContribution :=
  { id := submitId st, contributor := contributor,
    raw_input := sanitize_input text, conflicts := detect_conflicts sc text,
    status := ContributionStatus.needs_clarification,
    curator_response := some (build_conflict_message (highConflicts sc text)),
    created_at := st.tick + 1, resolved_at := none }

/-- The record staged on the acceptance branch of `process_contribution`
invoked at state `st`. -/
def pendingRecordOf (sc : Scanners) (st : RedisState) (text contributor : Str) :
    PendingContribution :=
  { id := submitId st, contributor := contributor,
    raw_input := sanitize_input text, conflicts := detect_conflicts sc text,
    status := ContributionStatus.pending, curator_response := none,
    created_at := st.tick + 1, resolved_at := none }

/-- The result returned on the clarification branch. -/
def clarResultOf (sc : Scanners) (st : RedisState) (text : Str) : CurationResult :=
  { accepted := false, message := build_conflict_message (highConflicts sc text),
    conflicts_found := highConflicts sc text, clarification_needed := true,
    suggestion := none, contribution_id := some (submitId st) }

/-- The result returned on the acceptance branch. -/
def acceptResultOf (st : RedisState) : CurationResult :=
  { accepted := true, message := "staged, no conflicts".toList,
    conflicts_found := [], clarification_needed := false, suggestion := none,
    contribution_id := some (submitId st) }

/-- A scanner set reporting one high-confidence contradiction, for the
concrete instantiation of the gating theorem. -/
def oneConflictScanners : Scanners :=
  ⟨fun _ => [⟨"pricing.parent_plan".toList, "20".toList, "99".toList,
      ConflictType.contradiction, mkRat 8 10⟩],
   fun _ => [], fun _ => [], fun _ => [], fun _ => []⟩

/-! ## Lemmas and claim theorems -/

/-! ### Basic association-list lemmas -/

theorem alookup_aset_self {α : Type} (l : List (Str × α)) (k : Str) (v : α) :
    alookup (aset l k v) k = some v := by
  induction l with
  | nil => simp [aset, alookup]
  | cons hd tl ih =>
      obtain ⟨k', v'⟩ := hd
      by_cases h : k' = k
      · simp [aset, h, alookup]
      · simp [aset, h, alookup, ih]

theorem alookup_mem {α : Type} {l : List (Str × α)} {k : Str} {v : α}
    (h : alookup l k = some v) : (k, v) ∈ l := by
  induction l with
  | nil => simp [alookup] at h
  | cons hd tl ih =>
      obtain ⟨k', v'⟩ := hd
      by_cases hk : k' = k
      · subst hk
        simp [alookup] at h
        simp [h]
      · simp [alookup, hk] at h
        exact List.mem_cons_of_mem _ (ih h)

/-! ### Claim C4: lock release is token-guarded -/

/-- C4.  `release_lock` deletes the stored lock and returns `true` only
when the currently stored token for the resource equals the presented
token; when the stored token differs or no lock is present it returns
`false` and leaves the state unchanged; and when the store is reachable
and the stored token does match, it does release and report `true`. -/
theorem release_lock_token_match (st : RedisState) (resource token : Str) :
    ((release_lock st resource token).1 = true →
      alookup st.locks (lockKeyOf resource) = some token ∧
      (release_lock st resource token).2 =
        { st with locks := adel st.locks (lockKeyOf resource) }) ∧
    (alookup st.locks (lockKeyOf resource) ≠ some token →
      (release_lock st resource token).1 = false ∧
      (release_lock st resource token).2 = st) ∧
    (st.available = true → alookup st.locks (lockKeyOf resource) = some token →
      (release_lock st resource token) =
        (true, { st with locks := adel st.locks (lockKeyOf resource) })) := by
  unfold release_lock
  by_cases hav : st.available
  · simp only [hav, if_true]
    cases hcur : alookup st.locks (lockKeyOf resource) with
    | none => simp
    | some current =>
        by_cases heq : current = token
        · subst heq; simp
        · simp [heq, Ne.symm heq]
  · simp [hav]

/-- Concrete instantiation of `release_lock_token_match`: a state holding
a lock for another token refuses the release and is unchanged. -/
theorem release_lock_token_match_witness :
    (release_lock
        { initialState true with locks := [(lockKeyOf "res".toList, "tok_other".toList)] }
        "res".toList "tok_mine".toList).1 = false ∧
    (release_lock
        { initialState true with locks := [(lockKeyOf "res".toList, "tok_other".toList)] }
        "res".toList "tok_mine".toList).2 =
      { initialState true with locks := [(lockKeyOf "res".toList, "tok_other".toList)] } :=
  (release_lock_token_match
      { initialState true with locks := [(lockKeyOf "res".toList, "tok_other".toList)] }
      "res".toList "tok_mine".toList).2.1 (by decide)

/-! ### Claim C8: fixed-window rate limiting -/

theorem rateIter_counter (identifier : Str) (m w : Nat) :
    ∀ (n : Nat) (s : RedisState), s.available = true →
      (rateIter identifier m w n s).available = true ∧
      (alookup (rateIter identifier m w n s).rateCounters identifier).getD 0 =
        (alookup s.rateCounters identifier).getD 0 + n := by
  intro n
  induction n with
  | zero => intro s hs; simp [rateIter, hs]
  | succ n ih =>
      intro s hs
      have hstep :
          (check_rate_limit s identifier m w).2.available = true ∧
          (alookup (check_rate_limit s identifier m w).2.rateCounters identifier).getD 0 =
            (alookup s.rateCounters identifier).getD 0 + 1 := by
        simp [check_rate_limit, hs, alookup_aset_self]
      obtain ⟨h1, h2⟩ := ih (check_rate_limit s identifier m w).2 hstep.1
      refine ⟨h1, ?_⟩
      simp only [rateIter]
      rw [h2, hstep.2]
      omega

/-- C8.  `check_rate_limit` atomically increments the window counter and
returns `allowed` iff the post-increment count is at most `max_requests`,
with `remaining = max(0, max_requests - count)`; consequently, starting
from a fresh window, the `(N+1)`-th call for the same identifier with
`max_requests = N` is refused. -/
theorem rate_limit_window_law (st : RedisState) (identifier : Str)
    (N window : Nat)
    (h_avail : st.available = true)
    (h_fresh : alookup st.rateCounters identifier = none) :
    (∀ (s : RedisState) (m : Nat), s.available = true →
      (check_rate_limit s identifier m window).1.1 =
        decide ((alookup s.rateCounters identifier).getD 0 + 1 ≤ m) ∧
      (check_rate_limit s identifier m window).1.2 =
        m - ((alookup s.rateCounters identifier).getD 0 + 1) ∧
      alookup (check_rate_limit s identifier m window).2.rateCounters identifier =
        some ((alookup s.rateCounters identifier).getD 0 + 1)) ∧
    (check_rate_limit (rateIter identifier N window N st) identifier N window).1.1
      = false := by
  constructor
  · intro s m hs
    simp [check_rate_limit, hs, alookup_aset_self]
  · obtain ⟨h1, h2⟩ := rateIter_counter identifier N window N st h_avail
    simp [h_fresh] at h2
    simp [check_rate_limit, h1, h2]

/-- Concrete instantiation of `rate_limit_window_law` with `N = 2`: the
third call in a fresh window is refused. -/
theorem rate_limit_window_law_witness :
    (check_rate_limit
        (rateIter "query:u@x.io".toList 2 60 2 (initialState true))
        "query:u@x.io".toList 2 60).1.1 = false :=
  (rate_limit_window_law (initialState true) "query:u@x.io".toList 2 60
      (by decide) (by decide)).2

/-! ### Claim C6: every replacing write archives exactly one history entry -/

/-- C6.  With `save_history = true` and a reachable store,
`save_brain_update` on a `category:key` that already holds a value
prepends exactly one history entry — containing the replaced record and
the new version id — in the same atomic pipeline as the overwrite, while
a save to a key with no existing value leaves the history untouched; in
both cases the override hash afterwards holds the new record. -/
theorem save_brain_update_history (st : RedisState)
    (category key value contributor : Str)
    (h_avail : st.available = true) :
    ((save_brain_update st category key value contributor true).1.1 = true) ∧
    ((save_brain_update st category key value contributor true).1.2 = st.tick) ∧
    (∀ old, alookup st.brainUpdates (fieldKey category key) = some old →
      (save_brain_update st category key value contributor true).2.brainHistory =
        (st.tick, ⟨old, st.tick, contributor, st.tick⟩) :: st.brainHistory) ∧
    (alookup st.brainUpdates (fieldKey category key) = none →
      (save_brain_update st category key value contributor true).2.brainHistory =
        st.brainHistory) ∧
    (alookup (save_brain_update st category key value contributor true).2.brainUpdates
        (fieldKey category key) =
      some ⟨category, key, value, contributor, st.tick, st.tick⟩) := by
  cases hcur : alookup st.brainUpdates (fieldKey category key) with
  | none =>
      simp [save_brain_update, h_avail, hcur, log_audit, zadd, alookup_aset_self]
  | some old =>
      simp [save_brain_update, h_avail, hcur, log_audit, zadd, alookup_aset_self]

/-- Concrete instantiation of `save_brain_update_history`: overwriting an
existing override archives exactly the replaced record. -/
theorem save_brain_update_history_witness :
    let u0 : BrainUpdate :=
      ⟨"pricing".toList, "k".toList, "old".toList, "alice@x.io".toList, 3, 3⟩
    let st : RedisState :=
      { initialState true with
          brainUpdates := [(fieldKey "pricing".toList "k".toList, u0)], tick := 5 }
    (save_brain_update st "pricing".toList "k".toList "new".toList
        "bob@x.io".toList true).2.brainHistory =
      [(5, ⟨u0, 5, "bob@x.io".toList, 5⟩)] := by
  intro u0 st
  have h := (save_brain_update_history st "pricing".toList "k".toList
      "new".toList "bob@x.io".toList (by decide)).2.2.1 u0 (by decide)
  simpa [st] using h

/-! ### Claim C3: the rollback round-trip -/

/-- C3 counterexample.  After `save(cat,key,v1)`, `save(cat,key,v2)` and a
first rollback (which does restore `v1`), the second rollback does not
return "no history" even though nothing preceded `v1`: the first rollback
archived `v2`, so the second rollback restores `v2` and returns its
record. -/
theorem rollback_roundtrip_cex :
    let st1 := (save_brain_update (initialState true) "pricing".toList "k".toList
        "v1".toList "alice@x.io".toList true).2
    let st2 := (save_brain_update st1 "pricing".toList "k".toList
        "v2".toList "alice@x.io".toList true).2
    let r1 := rollback_brain_update st2 "pricing".toList "k".toList
    let r2 := rollback_brain_update r1.2 "pricing".toList "k".toList
    (r1.1.map BrainUpdate.value = some "v1".toList) ∧
    ((alookup r1.2.brainUpdates (fieldKey "pricing".toList "k".toList)).map
        BrainUpdate.value = some "v1".toList) ∧
    r2.1 ≠ none ∧
    (r2.1.map BrainUpdate.value = some "v2".toList) ∧
    ((alookup r2.2.brainUpdates (fieldKey "pricing".toList "k".toList)).map
        BrainUpdate.value = some "v2".toList) := by
  decide

/-- C3 as amended.  Starting from an empty store,
`save(cat,key,v1); save(cat,key,v2); rollback(cat,key)` restores the
override value to `v1`, and a second `rollback(cat,key)` restores the
value archived by the first rollback — `v2` — rather than what preceded
`v1`; repeated rollbacks therefore alternate between the two saved
values. -/
theorem rollback_roundtrip_amended (category key v1 v2 contributor : Str) :
    let st1 := (save_brain_update (initialState true) category key v1
        contributor true).2
    let st2 := (save_brain_update st1 category key v2 contributor true).2
    let r1 := rollback_brain_update st2 category key
    let r2 := rollback_brain_update r1.2 category key
    (r1.1.map BrainUpdate.value = some v1) ∧
    ((alookup r1.2.brainUpdates (fieldKey category key)).map BrainUpdate.value
        = some v1) ∧
    (r2.1.map BrainUpdate.value = some v2) ∧
    ((alookup r2.2.brainUpdates (fieldKey category key)).map BrainUpdate.value
        = some v2) := by
  simp [rollback_brain_update, rollbackLoop, get_brain_history, zrevrangeSlice,
    save_brain_update, log_audit, trimAudit, zadd, fieldKey, alookup, aset,
    initialState, scoreDesc, List.insertionSort, List.orderedInsert]

theorem dedupByPath_first (seen : List Str) (l : List ConflictInfo) :
    ∀ c ∈ dedupByPath seen l,
      c.field_path ∉ seen ∧
      List.find? (fun d => d.field_path == c.field_path) l = some c := by
  induction l generalizing seen with
  | nil => simp [dedupByPath]
  | cons hd tl ih =>
      intro c hc
      by_cases hseen : hd.field_path ∈ seen
      · simp only [dedupByPath, if_pos hseen] at hc
        obtain ⟨hnot, hfind⟩ := ih seen c hc
        have hne : hd.field_path ≠ c.field_path := by
          intro h
          exact hnot (h ▸ hseen)
        refine ⟨hnot, ?_⟩
        rw [List.find?_cons_of_neg _ (by simp [hne]), hfind]
      · simp only [dedupByPath, if_neg hseen, List.mem_cons] at hc
        cases hc with
        | inl h =>
            subst h
            exact ⟨hseen, List.find?_cons_of_pos _ (by simp)⟩
        | inr h =>
            obtain ⟨hnot, hfind⟩ := ih (hd.field_path :: seen) c h
            have hne : hd.field_path ≠ c.field_path := by
              intro heq
              exact hnot (by simp [heq])
            refine ⟨fun hmem => hnot (List.mem_cons_of_mem _ hmem), ?_⟩
            rw [List.find?_cons_of_neg _ (by simp [hne]), hfind]

theorem dedupByPath_pairwise (seen : List Str) (l : List ConflictInfo) :
    (dedupByPath seen l).Pairwise (fun a b => a.field_path ≠ b.field_path) := by
  induction l generalizing seen with
  | nil => simp [dedupByPath]
  | cons hd tl ih =>
      by_cases hseen : hd.field_path ∈ seen
      · simpa [dedupByPath, if_pos hseen] using ih seen
      · simp only [dedupByPath, if_neg hseen]
        refine List.Pairwise.cons ?_ (ih (hd.field_path :: seen))
        intro b hb
        have := (dedupByPath_first (hd.field_path :: seen) tl b hb).1
        intro heq
        exact this (by simp [heq])

/-! ### Claim C5: conflicts are path-unique and sorted by confidence -/

/-- C5.  For every input text (and knowledge snapshot, i.e. any scanner
behaviour), `detect_conflicts` returns a list that is sorted by
non-increasing confidence, contains at most one conflict per
`field_path`, and keeps, for each returned path, exactly the first
conflict produced in the fixed scanner order. -/
theorem detect_conflicts_dedup_sorted (sc : Scanners) (text : Str) :
    List.Sorted confidenceDesc (detect_conflicts sc text) ∧
    (detect_conflicts sc text).Pairwise (fun a b => a.field_path ≠ b.field_path) ∧
    (∀ c ∈ detect_conflicts sc text,
      List.find? (fun d => d.field_path == c.field_path) (allScans sc text)
        = some c) := by
  refine ⟨List.sorted_insertionSort confidenceDesc _, ?_, ?_⟩
  · exact ((List.perm_insertionSort confidenceDesc _).pairwise_iff
      (fun h => Ne.symm h)).mpr (dedupByPath_pairwise [] _)
  · intro c hc
    have hmem : c ∈ dedupByPath [] (allScans sc text) :=
      (List.perm_insertionSort confidenceDesc _).mem_iff.mp hc
    exact (dedupByPath_first [] _ c hmem).2

/-- Concrete instantiation of `detect_conflicts_dedup_sorted`: two
scanners producing a shared path plus distinct confidences. -/
theorem detect_conflicts_dedup_sorted_witness :
    let cA : ConflictInfo :=
      ⟨"pricing.parent_plan".toList, "e1".toList, "p1".toList, .contradiction, mkRat 8 10⟩
    let cB : ConflictInfo :=
      ⟨"team.t1.role".toList, "e2".toList, "p2".toList, .contradiction, mkRat 9 10⟩
    let cC : ConflictInfo :=
      ⟨"pricing.parent_plan".toList, "e3".toList, "p3".toList, .duplicate, mkRat 95 100⟩
    let sc : Scanners :=
      ⟨fun _ => [cA], fun _ => [], fun _ => [], fun _ => [cB], fun _ => [cC]⟩
    List.Sorted confidenceDesc (detect_conflicts sc "t".toList) ∧
    (detect_conflicts sc "t".toList).Pairwise
      (fun a b => a.field_path ≠ b.field_path) ∧
    (∀ c ∈ detect_conflicts sc "t".toList,
      List.find? (fun d => d.field_path == c.field_path)
        (allScans sc "t".toList) = some c) :=
  detect_conflicts_dedup_sorted _ _

/-! ### Claims C7 and C10: resolution lookup -/

theorem mem_pending_queue (st : RedisState) {p : PendingContribution}
    (hp : p ∈ pending_queue st) :
    ∃ k ∈ newestPendingIds st 100, alookup st.pendingStore k = some p := by
  unfold pending_queue at hp
  by_cases hav : st.available
  · simp only [list_pending, hav, if_true] at hp
    by_cases h0 : st.pendingIndex.length = 0
    · simp [h0] at hp
    · simp only [h0, if_false] at hp
      rw [List.mem_filterMap] at hp
      obtain ⟨k, hk, hlk⟩ := hp
      refine ⟨k, ?_, hlk⟩
      simpa [newestPendingIds, zrevrangeSlice] using hk
  · simp [hav] at hp

theorem resolve_queue_miss (sc : Scanners) (st : RedisState)
    (contribution_id action : Str) (clarification : Option Str)
    (hfind : (pending_queue st).find? (fun p => p.id == contribution_id) = none) :
    resolve_contribution sc st contribution_id action clarification =
      some (resolveNotFound contribution_id, st) := by
  unfold resolve_contribution
  rw [hfind]

/-- C7.  Resolving a contribution id that is not present in the staging
store (already deleted or never staged) returns the explicit not-found
result and leaves the entire store state — staging keyspace and index,
override hash, audit log, and locks — unchanged; in particular no lock is
acquired. -/
theorem resolve_missing_noop (sc : Scanners) (st : RedisState)
    (contribution_id action : Str) (clarification : Option Str)
    (hwf : PendingStoreWF st)
    (habsent : alookup st.pendingStore contribution_id = none) :
    resolve_contribution sc st contribution_id action clarification =
      some (resolveNotFound contribution_id, st) := by
  apply resolve_queue_miss
  apply List.find?_eq_none.mpr
  intro p hp
  obtain ⟨k, hk, hlk⟩ := mem_pending_queue st hp
  have hid : p.id = k := hwf (k, p) (alookup_mem hlk)
  simp only [beq_iff_eq]
  intro heq
  rw [hid] at heq
  subst heq
  rw [habsent] at hlk
  exact Option.noConfusion hlk

/-- Concrete instantiation of `resolve_missing_noop`: resolving an
unknown id against a store holding one other contribution. -/
theorem resolve_missing_noop_witness :
    resolve_contribution exScanners oneItemState "contrib_zzz".toList
        "update".toList none =
      some (resolveNotFound "contrib_zzz".toList, oneItemState) :=
  resolve_missing_noop exScanners oneItemState "contrib_zzz".toList
    "update".toList none (by decide) (by decide)

/-- C10.  `resolve_contribution` locates the staged contribution via
`pending_queue`, which reads only the 100 newest ids of the pending
index; a contribution that exists in the store but is not among those
100 newest ids gets the not-found result, the state is unchanged, and
the contribution cannot be resolved. -/
theorem resolve_only_newest100 (sc : Scanners) (st : RedisState)
    (contribution_id action : Str) (clarification : Option Str)
    (hwf : PendingStoreWF st)
    (_hstaged : (alookup st.pendingStore contribution_id).isSome = true)
    (hold : contribution_id ∉ newestPendingIds st 100) :
    resolve_contribution sc st contribution_id action clarification =
      some (resolveNotFound contribution_id, st) := by
  apply resolve_queue_miss
  apply List.find?_eq_none.mpr
  intro p hp
  obtain ⟨k, hk, hlk⟩ := mem_pending_queue st hp
  have hid : p.id = k := hwf (k, p) (alookup_mem hlk)
  simp only [beq_iff_eq]
  intro heq
  rw [hid] at heq
  subst heq
  exact hold hk

/-- Concrete instantiation of `resolve_only_newest100`: with 101 staged
items, the oldest (`contrib_0`) is invisible to resolution. -/
theorem resolve_only_newest100_witness :
    resolve_contribution exScanners hundredOneState (exRecord 0).id
        "update".toList none =
      some (resolveNotFound (exRecord 0).id, hundredOneState) :=
  resolve_only_newest100 exScanners hundredOneState (exRecord 0).id
    "update".toList none (by decide) (by decide) (by decide)

/-! ### Claim C9: sanitization of staged contributions -/

theorem escapeChar_no_specials (c : Char) : noRawSpecials (escapeChar c) := by
  unfold escapeChar
  split_ifs with h1 h2 h3 h4 h5
  · decide
  · decide
  · decide
  · decide
  · decide
  · intro d hd
    rw [List.mem_singleton] at hd
    subst hd
    exact ⟨h2, h3, h4, h5⟩

theorem htmlEscape_no_specials (s : Str) : noRawSpecials (htmlEscape s) := by
  intro d hd
  rw [htmlEscape, List.mem_flatMap] at hd
  obtain ⟨c, _, hdc⟩ := hd
  exact escapeChar_no_specials c d hdc

theorem noRawSpecials_take (s : Str) (n : Nat) (h : noRawSpecials s) :
    noRawSpecials (s.take n) :=
  fun c hc => h c (List.take_subset n s hc)

theorem sanitize_input_length_le (v : Str) :
    (sanitize_input v).length ≤ MAX_CONTRIBUTION_LENGTH := by
  simp only [sanitize_input]
  split_ifs with h
  · rw [List.length_take]
    exact min_le_left _ _
  · omega

theorem sanitize_input_no_specials (v : Str) :
    noRawSpecials (sanitize_input v) := by
  simp only [sanitize_input]
  split_ifs with h
  · exact noRawSpecials_take _ _ (htmlEscape_no_specials v)
  · exact htmlEscape_no_specials v

theorem mem_aset {α : Type} (l : List (Str × α)) (k : Str) (v : α) :
    ∀ kr ∈ aset l k v, kr = (k, v) ∨ kr ∈ l := by
  induction l with
  | nil =>
      intro kr hkr
      simp [aset] at hkr
      exact Or.inl hkr
  | cons hd tl ih =>
      intro kr hkr
      obtain ⟨k', v'⟩ := hd
      by_cases h : k' = k
      · simp only [aset, if_pos h] at hkr
        rcases List.mem_cons.mp hkr with h1 | h1
        · exact Or.inl h1
        · exact Or.inr (List.mem_cons_of_mem _ h1)
      · simp only [aset, if_neg h] at hkr
        rcases List.mem_cons.mp hkr with h1 | h1
        · exact Or.inr (h1 ▸ List.mem_cons_self _ _)
        · rcases ih kr h1 with h2 | h2
          · exact Or.inl h2
          · exact Or.inr (List.mem_cons_of_mem _ h2)

theorem mkPendingContribution_fields {id contributor raw : Str}
    {conflicts : List ConflictInfo} {status : ContributionStatus}
    {resp : Option Str} {now : Nat} {p : PendingContribution}
    (h : mkPendingContribution id contributor raw conflicts status resp now
      = some p) :
    SanitizedRecord p ∧ p.contributor = contributor ∧
      p.raw_input = sanitize_input raw := by
  unfold mkPendingContribution at h
  split_ifs at h with h1
  rw [Option.some.injEq] at h
  subst h
  exact ⟨⟨sanitize_input_length_le raw, sanitize_input_no_specials raw⟩, rfl, rfl⟩

theorem curator_save_pending_sanitized (st : RedisState)
    (p : PendingContribution)
    (h0 : SanitizedStore st) (hp : SanitizedRecord p) :
    SanitizedStore (curator_save_pending st p) := by
  unfold curator_save_pending
  split_ifs with h1
  · unfold save_pending
    split_ifs with h2
    · exact h0
    · intro kr hkr
      rcases mem_aset st.pendingStore p.id p kr hkr with h | h
      · rw [h]
        exact hp
      · exact h0 kr h
  · exact h0

/-- C9 counterexample.  Neither the `PendingContribution` constructor nor
the submission path requires a non-empty contributor: submitting with an
empty contributor string succeeds and stages a contribution whose
`contributor` is the empty string, violating the claimed invariant. -/
theorem staging_empty_contributor_cex :
    ((process_contribution exScanners (initialState true) "hello".toList []
        false).map
      (fun rs => rs.2.pendingStore.map (fun kr => kr.2.contributor)))
      = some [[]] := by decide

/-- C9 as amended.  Every contribution placed in the staging store has a
`raw_input` that was HTML-escaped at construction (no raw `<`, `>`,
double-quote or single-quote character remains) and whose length is at
most the 10,000-character cap; submission preserves this store-wide
invariant.  The non-empty-contributor half of the original claim is not
enforced by the core (see the counterexample): it holds only when the
caller supplies a non-empty authenticated identity. -/
theorem staging_sanitization_invariant (sc : Scanners) (st : RedisState)
    (text contributor : Str) (force : Bool) (r : CurationResult)
    (st' : RedisState)
    (h0 : SanitizedStore st)
    (h : process_contribution sc st text contributor force = some (r, st')) :
    SanitizedStore st' := by
  simp only [process_contribution, generate_id] at h
  split at h
  · split at h
    · split at h
      next heq => exact Option.noConfusion h
      next pending heq =>
        rw [Option.some.injEq, Prod.mk.injEq] at h
        rw [← h.2]
        exact curator_save_pending_sanitized _ _ h0
          (mkPendingContribution_fields heq).1
    · split at h
      next heq => exact Option.noConfusion h
      next pending heq =>
        rw [Option.some.injEq, Prod.mk.injEq] at h
        rw [← h.2]
        exact curator_save_pending_sanitized _ _ h0
          (mkPendingContribution_fields heq).1
  · split at h
    next heq => exact Option.noConfusion h
    next pending heq =>
      rw [Option.some.injEq, Prod.mk.injEq] at h
      rw [← h.2]
      exact curator_save_pending_sanitized _ _ h0
        (mkPendingContribution_fields heq).1

/-- Concrete instantiation of `staging_sanitization_invariant`: a
submission containing raw markup leaves the store sanitized. -/
theorem staging_sanitization_invariant_witness :
    SanitizedStore
      ((process_contribution exScanners (initialState true)
          "<b>hi</b>".toList "stephen@x.io".toList false).getD
        (resolveUnknown [], initialState true)).2 :=
  staging_sanitization_invariant exScanners (initialState true)
    "<b>hi</b>".toList "stephen@x.io".toList false _ _ (by decide) (by rfl)

/-! ### Claims C1 and C2: submission gating and write-failure surfacing -/

theorem mk_clarify_eq (sc : Scanners) (st : RedisState) (text contributor : Str)
    (h_text : text.length ≤ MAX_CONTRIBUTION_LENGTH) :
    mkPendingContribution (submitId st) contributor text
        (detect_conflicts sc text) ContributionStatus.needs_clarification
        (some (build_conflict_message (highConflicts sc text))) (st.tick + 1)
      = some (clarifyRecordOf sc st text contributor) := by
  unfold mkPendingContribution clarifyRecordOf
  rw [if_neg (Nat.not_lt.mpr h_text)]

theorem mk_pending_eq (sc : Scanners) (st : RedisState) (text contributor : Str)
    (h_text : text.length ≤ MAX_CONTRIBUTION_LENGTH) :
    mkPendingContribution (submitId st) contributor text
        (detect_conflicts sc text) ContributionStatus.pending none (st.tick + 1)
      = some (pendingRecordOf sc st text contributor) := by
  unfold mkPendingContribution pendingRecordOf
  rw [if_neg (Nat.not_lt.mpr h_text)]

theorem process_eq_clar (sc : Scanners) (st : RedisState)
    (text contributor : Str) (force : Bool)
    (hf : force = false) (hh : highConflicts sc text ≠ [])
    (h_text : text.length ≤ MAX_CONTRIBUTION_LENGTH) :
    process_contribution sc st text contributor force =
      some (clarResultOf sc st text,
            curator_save_pending { st with tick := st.tick + 1 }
              (clarifyRecordOf sc st text contributor)) := by
  subst hf
  have hconf : detect_conflicts sc text ≠ [] := by
    intro hc
    apply hh
    simp [highConflicts, hc]
  simp only [process_contribution, generate_id]
  rw [if_pos (by simp [hconf]), if_pos hh,
    mk_clarify_eq sc st text contributor h_text]
  rfl

theorem process_eq_accept (sc : Scanners) (st : RedisState)
    (text contributor : Str) (force : Bool)
    (h_path : force = true ∨ highConflicts sc text = [])
    (h_text : text.length ≤ MAX_CONTRIBUTION_LENGTH) :
    process_contribution sc st text contributor force =
      some (acceptResultOf st,
            curator_save_pending { st with tick := st.tick + 1 }
              (pendingRecordOf sc st text contributor)) := by
  simp only [process_contribution, generate_id]
  rcases h_path with hf | hh
  · rw [if_neg (by simp [hf]), mk_pending_eq sc st text contributor h_text]
    rfl
  · by_cases hcond : force = false ∧ detect_conflicts sc text ≠ []
    · rw [if_pos (by simp [hcond.1, hcond.2]), if_neg (by simp [hh]),
        mk_pending_eq sc st text contributor h_text]
      rfl
    · rw [if_neg (by simpa using hcond),
        mk_pending_eq sc st text contributor h_text]
      rfl

theorem curator_save_pending_eq (st : RedisState) (p : PendingContribution)
    (h_avail : st.available = true)
    (h_fit : pendingDumpLen p ≤ MAX_CONTRIBUTION_LENGTH) :
    curator_save_pending st p =
      { st with pendingStore := aset st.pendingStore p.id p,
                pendingIndex := zadd st.pendingIndex st.tick p.id,
                tick := st.tick + 1 } := by
  unfold curator_save_pending save_pending
  rw [if_pos h_avail, if_neg (Nat.not_lt.mpr h_fit), if_pos h_avail]

/-- C2 counterexample.  With the store unavailable, the pipelined save of
a submitted contribution fails and nothing is persisted, yet
`process_contribution` reports success (`accepted = true` with a
contribution id) instead of an explicit failure. -/
theorem submit_swallows_write_failure_cex :
    ((process_contribution exScanners (initialState false) "hello".toList
        "stephen@x.io".toList false).map
      (fun rs => (rs.1.accepted, rs.1.contribution_id, rs.2.pendingStore)))
      = some (true, some "contrib_0".toList, []) := by decide

/-- C2 as amended.  Repository write failures during Submit are logged
and swallowed, not surfaced: on the acceptance path with an unavailable
store, `process_contribution` persists nothing (the staging keyspace and
index are unchanged) yet still returns `accepted = true` with the new
contribution id.  (The same pattern holds for the other failing-write
modes: `_save_pending` discards `save_pending`'s `false` on an oversized
record, and the `update` branch of `resolve_contribution` discards
`save_brain_update`'s success flag.) -/
theorem submit_swallows_write_failure (sc : Scanners) (st : RedisState)
    (text contributor : Str) (force : Bool)
    (h_unavail : st.available = false)
    (h_text : text.length ≤ MAX_CONTRIBUTION_LENGTH)
    (h_path : force = true ∨ highConflicts sc text = []) :
    process_contribution sc st text contributor force =
      some (acceptResultOf st, { st with tick := st.tick + 1 }) ∧
    (acceptResultOf st).accepted = true ∧
    (acceptResultOf st).contribution_id = some (submitId st) ∧
    ({ st with tick := st.tick + 1 } : RedisState).pendingStore =
      st.pendingStore ∧
    ({ st with tick := st.tick + 1 } : RedisState).pendingIndex =
      st.pendingIndex := by
  refine ⟨?_, rfl, rfl, rfl, rfl⟩
  rw [process_eq_accept sc st text contributor force h_path h_text]
  have hsave : curator_save_pending { st with tick := st.tick + 1 }
      (pendingRecordOf sc st text contributor) =
      { st with tick := st.tick + 1 } := by
    unfold curator_save_pending
    rw [if_neg (by simp [h_unavail])]
  rw [hsave]

/-- Concrete instantiation of `submit_swallows_write_failure`. -/
theorem submit_swallows_write_failure_witness :
    process_contribution exScanners (initialState false) "hello".toList
        "stephen@x.io".toList false =
      some (acceptResultOf (initialState false),
            { initialState false with tick := 1 }) :=
  (submit_swallows_write_failure exScanners (initialState false)
      "hello".toList "stephen@x.io".toList false (by decide) (by decide)
      (Or.inr (by decide))).1

/-- C1.  For every submission whose text fits the construction cap,
against a reachable store with room for the staged record: if
`force = false` and some detected conflict has confidence at or above
0.7, the contribution is persisted with status `needs_clarification`
(record and index written together) and the call returns
`accepted = false`, `clarification_needed = true` and exactly the
high-confidence conflicts; otherwise (no conflict reaches 0.7, or
`force = true`) the contribution is persisted with status `pending` and
the call returns `accepted = true` with the new contribution id. -/
theorem submit_conflict_gating (sc : Scanners) (st : RedisState)
    (text contributor : Str) (force : Bool)
    (h_avail : st.available = true)
    (h_text : text.length ≤ MAX_CONTRIBUTION_LENGTH)
    (h_fit_clar : pendingDumpLen (clarifyRecordOf sc st text contributor)
      ≤ MAX_CONTRIBUTION_LENGTH)
    (h_fit_pend : pendingDumpLen (pendingRecordOf sc st text contributor)
      ≤ MAX_CONTRIBUTION_LENGTH) :
    if force = false ∧ highConflicts sc text ≠ [] then
      process_contribution sc st text contributor force =
        some (clarResultOf sc st text,
              { st with
                  pendingStore := aset st.pendingStore (submitId st)
                    (clarifyRecordOf sc st text contributor),
                  pendingIndex := zadd st.pendingIndex (st.tick + 1) (submitId st),
                  tick := st.tick + 1 + 1 }) ∧
      (clarResultOf sc st text).accepted = false ∧
      (clarResultOf sc st text).clarification_needed = true ∧
      (clarResultOf sc st text).conflicts_found = highConflicts sc text ∧
      (clarResultOf sc st text).contribution_id = some (submitId st) ∧
      (clarifyRecordOf sc st text contributor).status =
        ContributionStatus.needs_clarification ∧
      alookup (aset st.pendingStore (submitId st)
          (clarifyRecordOf sc st text contributor)) (submitId st) =
        some (clarifyRecordOf sc st text contributor)
    else
      process_contribution sc st text contributor force =
        some (acceptResultOf st,
              { st with
                  pendingStore := aset st.pendingStore (submitId st)
                    (pendingRecordOf sc st text contributor),
                  pendingIndex := zadd st.pendingIndex (st.tick + 1) (submitId st),
                  tick := st.tick + 1 + 1 }) ∧
      (acceptResultOf st).accepted = true ∧
      (acceptResultOf st).clarification_needed = false ∧
      (acceptResultOf st).conflicts_found = [] ∧
      (acceptResultOf st).contribution_id = some (submitId st) ∧
      (pendingRecordOf sc st text contributor).status =
        ContributionStatus.pending ∧
      alookup (aset st.pendingStore (submitId st)
          (pendingRecordOf sc st text contributor)) (submitId st) =
        some (pendingRecordOf sc st text contributor) := by
  by_cases hbranch : force = false ∧ highConflicts sc text ≠ []
  · rw [if_pos hbranch]
    obtain ⟨hf, hh⟩ := hbranch
    refine ⟨?_, rfl, rfl, rfl, rfl, rfl, alookup_aset_self _ _ _⟩
    rw [process_eq_clar sc st text contributor force hf hh h_text,
      curator_save_pending_eq { st with tick := st.tick + 1 } _ h_avail
        h_fit_clar]
    rfl
  · rw [if_neg hbranch]
    have h_path : force = true ∨ highConflicts sc text = [] := by
      rcases Bool.eq_false_or_eq_true force with hf | hf
      · exact Or.inl hf
      · right
        by_contra hne
        exact hbranch ⟨hf, hne⟩
    refine ⟨?_, rfl, rfl, rfl, rfl, rfl, alookup_aset_self _ _ _⟩
    rw [process_eq_accept sc st text contributor force h_path h_text,
      curator_save_pending_eq { st with tick := st.tick + 1 } _ h_avail
        h_fit_pend]
    rfl

/-- Concrete instantiation of `submit_conflict_gating`: an unforced
submission over a scanner reporting a 0.8-confidence conflict. -/
theorem submit_conflict_gating_witness :
    if (false : Bool) = false ∧
        highConflicts oneConflictScanners "p".toList ≠ [] then
      process_contribution oneConflictScanners (initialState true) "p".toList
          "stephen@x.io".toList false =
        some (clarResultOf oneConflictScanners (initialState true) "p".toList,
              { initialState true with
                  pendingStore := aset (initialState true).pendingStore
                    (submitId (initialState true))
                    (clarifyRecordOf oneConflictScanners (initialState true)
                      "p".toList "stephen@x.io".toList),
                  pendingIndex := zadd (initialState true).pendingIndex
                    ((initialState true).tick + 1) (submitId (initialState true)),
                  tick := (initialState true).tick + 1 + 1 }) ∧
      (clarResultOf oneConflictScanners (initialState true) "p".toList).accepted
          = false ∧
      (clarResultOf oneConflictScanners (initialState true)
          "p".toList).clarification_needed = true ∧
      (clarResultOf oneConflictScanners (initialState true)
          "p".toList).conflicts_found =
        highConflicts oneConflictScanners "p".toList ∧
      (clarResultOf oneConflictScanners (initialState true)
          "p".toList).contribution_id = some (submitId (initialState true)) ∧
      (clarifyRecordOf oneConflictScanners (initialState true) "p".toList
          "stephen@x.io".toList).status =
        ContributionStatus.needs_clarification ∧
      alookup (aset (initialState true).pendingStore
          (submitId (initialState true))
          (clarifyRecordOf oneConflictScanners (initialState true) "p".toList
            "stephen@x.io".toList)) (submitId (initialState true)) =
        some (clarifyRecordOf oneConflictScanners (initialState true)
          "p".toList "stephen@x.io".toList)
    else
      process_contribution oneConflictScanners (initialState true) "p".toList
          "stephen@x.io".toList false =
        some (acceptResultOf (initialState true),
              { initialState true with
                  pendingStore := aset (initialState true).pendingStore
                    (submitId (initialState true))
                    (pendingRecordOf oneConflictScanners (initialState true)
                      "p".toList "stephen@x.io".toList),
                  pendingIndex := zadd (initialState true).pendingIndex
                    ((initialState true).tick + 1) (submitId (initialState true)),
                  tick := (initialState true).tick + 1 + 1 }) ∧
      (acceptResultOf (initialState true)).accepted = true ∧
      (acceptResultOf (initialState true)).clarification_needed = false ∧
      (acceptResultOf (initialState true)).conflicts_found = [] ∧
      (acceptResultOf (initialState true)).contribution_id =
        some (submitId (initialState true)) ∧
      (pendingRecordOf oneConflictScanners (initialState true) "p".toList
          "stephen@x.io".toList).status = ContributionStatus.pending ∧
      alookup (aset (initialState true).pendingStore
          (submitId (initialState true))
          (pendingRecordOf oneConflictScanners (initialState true) "p".toList
            "stephen@x.io".toList)) (submitId (initialState true)) =
        some (pendingRecordOf oneConflictScanners (initialState true)
          "p".toList "stephen@x.io".toList) :=
  submit_conflict_gating oneConflictScanners (initialState true) "p".toList
    "stephen@x.io".toList false (by decide) (by decide) (by decide) (by decide)

end PhonoLogic
